import Mathlib

/-!
Verification of the USPTO file-wrapper downloader (PTOfwdownloader.py).

The development shallowly embeds the download-and-verify pipeline of
`run_process` together with its helpers `verify_pdf`, `get_redirect_url`
and `download_final`.  Bytes are `List Nat`, the local filesystem is an
association list from paths to file entries, JSON values decoded by
`json.loads` are the inductive `J`, and everything the program observes
from the outside world (the document-list endpoint, the header block
curl dumps during the redirect probe, the result of the final curl
fetch, whether `os.remove` fails) is a deterministic oracle record
`Env`.  An exception that the Python code does not catch is modelled as
`Except.error`; the worker loop is a recursive function on the list of
application numbers.  String manipulation is re-implemented over
`List Char` by structural recursion so that all concrete runs reduce in
the kernel.
-/

namespace PTOFW

/-! Byte-level PDF validator (`verify_pdf`, lines 115-127). -/

def pdfMagic : List Nat := [37, 80, 68, 70]

structure FileEntry where
  bytes : List Nat
  readErr : Bool
  deriving DecidableEq

abbrev FS := List (String × FileEntry)

def fsGet : FS → String → Option FileEntry
  | [], _ => none
  | (q, e) :: r, p => if q = p then some e else fsGet r p

def fsRemove : FS → String → FS
  | [], _ => []
  | (k, e) :: r, p => if k = p then fsRemove r p else (k, e) :: fsRemove r p

def fsSet (fs : FS) (p : String) (e : FileEntry) : FS :=
  (p, e) :: fsRemove fs p

/-- `verify_pdf`: the path must exist, `os.path.getsize` must be at least
100, and the first 4 bytes read must be `%PDF`; an exception while
reading (`readErr`) is caught and yields `False`. -/
def verifyPdf (fs : FS) (p : String) : Bool :=
  match fsGet fs p with
  | none => false
  | some e =>
    if e.bytes.length < 100 then false
    else if e.readErr then false
    else e.bytes.take 4 == pdfMagic

def validEntry (e : FileEntry) : Bool :=
  !e.readErr && decide (100 ≤ e.bytes.length) && (e.bytes.take 4 == pdfMagic)

/-! Character-list utilities standing in for the Python string
operations used by the script (all single-character separators). -/

def trimChars (l : List Char) : List Char :=
  ((l.dropWhile Char.isWhitespace).reverse.dropWhile Char.isWhitespace).reverse

def splitOnChar (c : Char) : List Char → List (List Char)
  | [] => [[]]
  | x :: xs =>
    match splitOnChar c xs with
    | [] => [[x]]
    | h :: t => if x = c then [] :: h :: t else (x :: h) :: t

def splitWsAux : List Char → List Char → List (List Char)
  | [], acc => if acc.isEmpty then [] else [acc.reverse]
  | c :: cs, acc =>
    if c.isWhitespace then
      if acc.isEmpty then splitWsAux cs [] else acc.reverse :: splitWsAux cs []
    else splitWsAux cs (c :: acc)

def splitWs (l : List Char) : List (List Char) := splitWsAux l []

/-- Line 224: `[x.replace('/','').replace(',','') for x in
raw_list.replace('\n',' ').replace(',',' ').split() if x.strip()]`. -/
def normalizeInput (raw : String) : List String :=
  let cs := raw.data.map (fun c => if c = '\n' then ' ' else c)
  let cs2 := cs.map (fun c => if c = ',' then ' ' else c)
  ((splitWs cs2).filter (fun w => !(trimChars w).isEmpty)).map
    (fun w => String.mk ((w.filter (fun c => c != '/')).filter (fun c => c != ',')))

/-! Redirect resolver (`get_redirect_url`, lines 129-178).  The header
file is read in text mode (universal newlines, so the content contains
no carriage returns) and searched with the multiline regular expression
`^[Ll]ocation:\s*(.+)\r?$`.  A match starts at a line beginning with
`Location:` or `location:`; `\s*` is greedy and also matches newlines,
so when the remainder of that line is blank the whitespace run crosses
into the following lines, and `(.+)` (which cannot match a newline)
captures the first following non-blank line up to its end.  When even
that fails, backtracking inside a trailing all-whitespace run still
yields a match — with a whitespace-only group, stripped to the empty
string — as long as the run contains a space or tab.  The first start
position admitting a match wins, and the stripped group is returned. -/

def isLocStart (l : List Char) : Bool :=
  "Location:".data.isPrefixOf l || "location:".data.isPrefixOf l

def hasNonWs (l : List Char) : Bool := l.any (fun c => !c.isWhitespace)

def firstContentLine : List (List Char) → Option (List Char)
  | [] => none
  | l :: rest => if hasNonWs l then some l else firstContentLine rest

/-- Outcome of attempting the regex at one start position, given the
remainder `r` of the `Location` line after the field name and the
following lines `rest`. -/
def locAttempt (r : List Char) (rest : List (List Char)) : Option String :=
  if hasNonWs r then some (String.mk (trimChars r))
  else
    match firstContentLine rest with
    | some m => some (String.mk (trimChars m))
    | none =>
      if !r.isEmpty || rest.any (fun l => !l.isEmpty) then some "" else none

def locScan : List (List Char) → Option String
  | [] => none
  | l :: rest =>
    if isLocStart l then
      match locAttempt (l.drop 9) rest with
      | some v => some v
      | none => locScan rest
    else locScan rest

def parseLoc (content : String) : Option String :=
  locScan (splitOnChar '\n' content.data)

/-- `get_redirect_url` after the curl subprocess: `headerFile` is the
content of the dumped header file, `none` when the file was not created
(or the subprocess raised, which is caught and also yields `None`). -/
def getRedirectUrlModel (headerFile : Option String) : Option String :=
  headerFile.bind parseLoc

/-! JSON values as decoded by `json.loads`, and the Python dynamic
operations the script applies to them.  A raised `AttributeError` /
`TypeError` becomes `Except.error`. -/

inductive J where
  | jnull
  | jnum (n : Int)
  | jstr (s : String)
  | jarr (elems : List J)
  | jobj (fields : List (String × J))

def lookupKvs : List (String × J) → String → Option J
  | [], _ => none
  | (k, v) :: r, key => if k = key then some v else lookupKvs r key

/-- `v.get(key)` : only dictionaries have `.get`. -/
def jget : J → String → Except String (Option J)
  | J.jobj kvs, k => Except.ok (lookupKvs kvs k)
  | _, _ => Except.error "AttributeError"

/-- Python truthiness of a decoded JSON value. -/
def jTruthy : J → Bool
  | J.jnull => false
  | J.jnum n => n != 0
  | J.jstr s => !s.data.isEmpty
  | J.jarr xs => !xs.isEmpty
  | J.jobj kvs => !kvs.isEmpty

/-- `for x in v`: lists yield their elements, strings their characters,
dictionaries their keys; numbers and `None` raise `TypeError`. -/
def asIter : J → Except String (List J)
  | J.jarr xs => Except.ok xs
  | J.jstr s => Except.ok (s.data.map (fun c => J.jstr (String.mk [c])))
  | J.jobj kvs => Except.ok (kvs.map (fun kv => J.jstr kv.1))
  | _ => Except.error "TypeError"

mutual

/-- Python `repr` of a decoded JSON value (used when a non-string value
is interpolated into the file name). -/
def reprJ : J → String
  | J.jnull => "None"
  | J.jnum n => toString n
  | J.jstr s => "'" ++ s ++ "'"
  | J.jarr xs => "[" ++ reprJList xs ++ "]"
  | J.jobj kvs => "\x7b" ++ reprJFields kvs ++ "\x7d"

def reprJList : List J → String
  | [] => ""
  | [x] => reprJ x
  | x :: xs => reprJ x ++ ", " ++ reprJList xs

def reprJFields : List (String × J) → String
  | [] => ""
  | [kv] => "'" ++ kv.1 ++ "': " ++ reprJ kv.2
  | kv :: r => "'" ++ kv.1 ++ "': " ++ reprJ kv.2 ++ ", " ++ reprJFields r

end

/-- Python `str(v)` where `v` is a decoded JSON value or `None`
(f-string interpolation, e.g. of `doc_id` into the file name). -/
def pyToStr : Option J → String
  | none => "None"
  | some J.jnull => "None"
  | some (J.jstr s) => s
  | some (J.jnum n) => toString n
  | some v => reprJ v

/-! The deterministic environment: everything `run_process` observes
from outside.  The API responses are assumed unchanged between runs
exactly when the same `Env` value is reused. -/

structure FetchOutcome where
  /-- `curl` exit status zero (the return value of `download_final`). -/
  ok : Bool
  /-- Body bytes curl wrote to the destination path, if any. -/
  written : Option FileEntry

structure Env where
  /-- Destination folder chosen by the operator. -/
  rootDir : String
  /-- Content of the dumped header file after the probe curl for a
  given url, `none` if the file was not created. -/
  headerContent : J → Option String
  /-- Outcome of `download_final` for a given url and `use_key`. -/
  fetchResult : J → Bool → FetchOutcome
  /-- Lines 261-264: decoded JSON of the list endpoint for an
  application number, or the exception raised in that `try` block. -/
  listResult : String → Except String J
  /-- Whether `os.remove` raises for a given path (swallowed). -/
  rmFails : String → Bool

/-- Outcome of `get_redirect_url` for a given url. -/
def probeResult (env : Env) (url : J) : Option String :=
  getRedirectUrlModel (env.headerContent url)

/-! Observable events and the worker state. -/

inductive Ev where
  | listApp (app : String)
  | probeEv (url : J)
  | fetchEv (url : J) (withKey : Bool)

structure St where
  fs : FS
  success : Nat
  processed : Nat
  /-- Number of reads of `self.stop_flag` performed so far. -/
  reads : Nat
  trace : List Ev

def bumpRead (st : St) : St := { st with reads := st.reads + 1 }

/-- State bookkeeping at the head of one application iteration: the
flag read, the processed counter, and the list-endpoint call. -/
def stepSt (st : St) (app : String) : St :=
  { st with reads := st.reads + 1, processed := st.processed + 1,
            trace := st.trace ++ [Ev.listApp app] }

def countFetch (t : List Ev) : Nat :=
  (t.filter (fun e => match e with | Ev.fetchEv _ _ => true | _ => false)).length

def initSt (fs : FS) : St :=
  { fs := fs, success := 0, processed := 0, reads := 0, trace := [] }

def st0 : St := initSt []

/-! The download strategy of lines 315-339: probe for a redirect, then
fetch either from the redirect target without the API key or from the
resolved url with it, then verify and count. -/

/-- Lines 319-334: `if s3_url:` — a non-empty redirect string selects
the key-less S3 fetch, `None` or an empty string the direct fetch with
the key. -/
def chooseFetch (probeRes : Option String) (official : J) : J × Bool :=
  match probeRes with
  | some s3 => if s3.data.isEmpty then (official, true) else (J.jstr s3, false)
  | none => (official, true)

def downloadStrategy (env : Env) (official : J) (filepath : String) (st : St) : St :=
  let uk := chooseFetch (probeResult env official) official
  let r := env.fetchResult uk.1 uk.2
  let st2 : St :=
    { st with trace := st.trace ++ [Ev.probeEv official, Ev.fetchEv uk.1 uk.2] }
  let fs2 : FS :=
    match r.written with
    | some e => fsSet st2.fs filepath e
    | none => st2.fs
  if r.ok && verifyPdf fs2 filepath then
    { st2 with fs := fs2, success := st2.success + 1 }
  else
    { st2 with fs := fs2 }

/-! Metadata extraction, lines 282-288. -/

def pyCodeStr : Option J → String
  | none => "DOC"
  | some v => pyToStr (some v)

/-- Lines 282-284: `doc_id = doc.get('documentIdentifier')`,
`doc_code = doc.get('documentCode', 'DOC')`,
`date = doc.get('officialDate', 'nodate').split('T')[0]`; returns
`(idStr, codeStr, dateStr)` as the strings interpolated into the file
name. -/
def extractMeta (doc : J) : Except String (String × String × String) :=
  match jget doc "documentIdentifier" with
  | Except.error e => Except.error e
  | Except.ok idOpt =>
    match jget doc "documentCode" with
    | Except.error e => Except.error e
    | Except.ok codeOpt =>
      match jget doc "officialDate" with
      | Except.error e => Except.error e
      | Except.ok dateOpt =>
        match dateOpt with
        | none =>
          Except.ok (pyToStr idOpt, pyCodeStr codeOpt, "nodate")
        | some (J.jstr s) =>
          Except.ok (pyToStr idOpt, pyCodeStr codeOpt,
            String.mk ((splitOnChar 'T' s.data).headD []))
        | some _ => Except.error "AttributeError"

/-- Line 287-288: `f"{app_num}_{date}_{doc_code}_{doc_id}.pdf"` joined
under the application folder. -/
def targetPath (folder app dateStr codeStr idStr : String) : String :=
  folder ++ "/" ++ app ++ "_" ++ dateStr ++ "_" ++ codeStr ++ "_" ++ idStr ++ ".pdf"

/-! URL resolution, lines 300-311. -/

/-- `opt.get('mimeTypeIdentifier', '').upper() == 'PDF'` for the value
found at the key (`none` = key absent, so `''`). -/
def upperIsPdf : Option J → Except String Bool
  | none => Except.ok false
  | some (J.jstr s) => Except.ok (s.data.map Char.toUpper == "PDF".data)
  | some _ => Except.error "AttributeError"

/-- Lines 304-307: scan `downloadOptionBag`, stop at the first entry
whose MIME type upper-cases to `PDF` and take that entry's
`downloadUrl` (which may itself be absent). -/
def firstPdfUrl : List J → Except String (Option (Option J))
  | [] => Except.ok none
  | opt :: rest =>
    match jget opt "mimeTypeIdentifier" with
    | Except.error e => Except.error e
    | Except.ok mime =>
      match upperIsPdf mime with
      | Except.error e => Except.error e
      | Except.ok isPdf =>
        if isPdf then
          match jget opt "downloadUrl" with
          | Except.error e => Except.error e
          | Except.ok u => Except.ok (some u)
        else firstPdfUrl rest

/-- Line 311: `doc.get('downloadUrl', f"{list_url}/{doc_id}")`. -/
def topOrFallback (doc : J) (listUrl idStr : String) : Except String J :=
  match jget doc "downloadUrl" with
  | Except.error e => Except.error e
  | Except.ok (some v) => Except.ok v
  | Except.ok none => Except.ok (J.jstr (listUrl ++ "/" ++ idStr))

/-- Lines 300-311: resolved download URL for a document record. -/
def resolveUrl (doc : J) (listUrl idStr : String) : Except String J :=
  match jget doc "downloadOptionBag" with
  | Except.error e => Except.error e
  | Except.ok bagOpt =>
    match asIter (bagOpt.getD (J.jarr [])) with
    | Except.error e => Except.error e
    | Except.ok options =>
      match firstPdfUrl options with
      | Except.error e => Except.error e
      | Except.ok r =>
        match r with
        | some (some v) =>
          if jTruthy v then Except.ok v else topOrFallback doc listUrl idStr
        | some none => topOrFallback doc listUrl idStr
        | none => topOrFallback doc listUrl idStr

/-! One document of the inner loop (lines 280-342, after the stop-flag
check): extract metadata, skip an existing valid file, delete an
existing invalid one (deletion errors swallowed), resolve the URL and
run the download strategy. -/

def docStep (env : Env) (listUrl app folder : String) (doc : J) (st : St) :
    Except String St :=
  match extractMeta doc with
  | Except.error e => Except.error e
  | Except.ok (idStr, codeStr, dateStr) =>
    let p := targetPath folder app dateStr codeStr idStr
    match fsGet st.fs p with
    | some _ =>
      if verifyPdf st.fs p then Except.ok st
      else
        let fs1 := if env.rmFails p then st.fs else fsRemove st.fs p
        match resolveUrl doc listUrl idStr with
        | Except.error e => Except.error e
        | Except.ok official =>
          Except.ok (downloadStrategy env official p { st with fs := fs1 })
    | none =>
      match resolveUrl doc listUrl idStr with
      | Except.error e => Except.error e
      | Except.ok official => Except.ok (downloadStrategy env official p st)

/-- Document loop (lines 278-342): the stop flag is read at the start
of each iteration; reading it consumes one read index. -/
def runDocs (env : Env) (flag : Nat → Bool) (listUrl app folder : String) :
    List J → St → Except String St
  | [], st => Except.ok st
  | doc :: rest, st =>
    if flag st.reads then Except.ok (bumpRead st)
    else
      match docStep env listUrl app folder doc (bumpRead st) with
      | Except.error e => Except.error e
      | Except.ok st' => runDocs env flag listUrl app folder rest st'

def listUrlOf (app : String) : String :=
  "https://api.uspto.gov/api/v1/patent/applications/" ++ app ++ "/documents"

def appFolder (rootDir app : String) : String := rootDir ++ "/App_" ++ app

/-- Line 266 (inside the `try`):
`docs = data if isinstance(data, list) else data.get('documentBag', [])`. -/
def normalizeDocs (data : J) : Except String J :=
  match data with
  | J.jarr xs => Except.ok (J.jarr xs)
  | J.jobj kvs => Except.ok ((lookupKvs kvs "documentBag").getD (J.jarr []))
  | _ => Except.error "AttributeError"

/-- Application loop (lines 246-342): the stop flag is read at the
start of each iteration; a list-endpoint failure is caught and that
application skipped; an exception in the document loop propagates. -/
def runApps (env : Env) (flag : Nat → Bool) : List String → St → Except String St
  | [], st => Except.ok st
  | app :: rest, st =>
    if flag st.reads then Except.ok (bumpRead st)
    else
      let stC := stepSt st app
      match (env.listResult app).bind normalizeDocs with
      | Except.error _ => runApps env flag rest stC
      | Except.ok docsJ =>
        if jTruthy docsJ then
          match asIter docsJ with
          | Except.error e => Except.error e
          | Except.ok docs =>
            match runDocs env flag (listUrlOf app) app
                (appFolder env.rootDir app) docs stC with
            | Except.error e => Except.error e
            | Except.ok st' => runApps env flag rest st'
        else runApps env flag rest stC

/-- The document records an application's iteration will traverse (for
stating invariants); empty when the list call fails, the result is
falsy, or iteration would raise. -/
def docsOf (env : Env) (app : String) : List J :=
  match (env.listResult app).bind normalizeDocs with
  | Except.error _ => []
  | Except.ok dj =>
    if jTruthy dj then
      match asIter dj with
      | Except.ok l => l
      | Except.error _ => []
    else []

/-- The whole pipeline from the raw operator input. -/
def runProcess (env : Env) (flag : Nat → Bool) (raw : String) (fs : FS) :
    Except String St :=
  runApps env flag (normalizeInput raw) (initSt fs)

/-! A record-level view of well-formed document records, used to state
the URL-resolution claim: the code operates on the `J` encoding. -/

structure BagEntry where
  mime : Option String
  url : Option String

structure DocR where
  docId : String
  bag : List BagEntry
  topUrl : Option String

def encodeEntry (b : BagEntry) : J :=
  J.jobj
    ((match b.mime with
      | some m => [("mimeTypeIdentifier", J.jstr m)]
      | none => []) ++
     (match b.url with
      | some u => [("downloadUrl", J.jstr u)]
      | none => []))

def encodeDoc (d : DocR) : J :=
  J.jobj
    ([("documentIdentifier", J.jstr d.docId),
      ("downloadOptionBag", J.jarr (d.bag.map encodeEntry))] ++
     (match d.topUrl with
      | some u => [("downloadUrl", J.jstr u)]
      | none => []))

def isPdfEntry (b : BagEntry) : Bool :=
  (b.mime.getD "").data.map Char.toUpper == "PDF".data

/-- Written from the spec's words for the resolution claim: prefer the
`downloadUrl` of the first bag entry whose MIME type is "PDF"
case-insensitively, otherwise the record's top-level `downloadUrl`,
otherwise `<listUrl>/<documentIdentifier>`. -/
def resolveUrlSpec (d : DocR) (listUrl : String) : String :=
  match d.bag.find? isPdfEntry with
  | some b =>
    match b.url with
    | some u => u
    | none =>
      match d.topUrl with
      | some u => u
      | none => listUrl ++ "/" ++ d.docId
  | none =>
    match d.topUrl with
    | some u => u
    | none => listUrl ++ "/" ++ d.docId

/-! Hypotheses and fixtures used by the theorems below. -/

/-- Every final fetch in the environment succeeds at the transport
level and writes a body passing PDF validation. -/
def goodEnv (env : Env) : Prop :=
  ∀ u k, (env.fetchResult u k).ok = true ∧
    ∃ e, (env.fetchResult u k).written = some e ∧ validEntry e = true

/-- Iterating an application's truthy document container does not
raise (extracted from a completed first run). -/
def appIterOk (env : Env) (app : String) : Prop :=
  ∀ dj, (env.listResult app).bind normalizeDocs = Except.ok dj →
    jTruthy dj = true → ∃ l, asIter dj = Except.ok l

/-- The stop flag is never set. -/
def cFlagF : Nat → Bool := fun _ => false

def trivEnv : Env :=
  { rootDir := "R"
    headerContent := fun _ => none
    fetchResult := fun _ _ => { ok := false, written := none }
    listResult := fun _ => Except.error "ListError"
    rmFails := fun _ => false }

/-- A 100-byte body starting with `%PDF`. -/
def goodBytes : List Nat := pdfMagic ++ List.replicate 96 32

def goodEntry : FileEntry := { bytes := goodBytes, readErr := false }

/-- A 200-byte body not starting with `%PDF` (an HTML error page). -/
def badEntry : FileEntry := { bytes := List.replicate 200 72, readErr := false }

/-- Environment whose only document always fetches with exit status 0
but with a non-PDF body. -/
def c4env : Env :=
  { rootDir := "R"
    headerContent := fun _ => none
    fetchResult := fun _ _ => { ok := true, written := some badEntry }
    listResult := fun _ =>
      Except.ok (J.jarr [J.jobj [("documentIdentifier", J.jstr "D1")]])
    rmFails := fun _ => false }

/-- Number of `download_final` invocations performed by a second run
over the same input, starting from the file set the first run left. -/
def c4fetches2 : Except String Nat :=
  (runApps c4env cFlagF ["123"] st0).bind (fun s1 =>
    (runApps c4env cFlagF ["123"] (initSt s1.fs)).map
      (fun s2 => countFetch s2.trace))

/-- Environment whose only document always fetches a valid PDF. -/
def c4goodEnv : Env :=
  { rootDir := "R"
    headerContent := fun _ => none
    fetchResult := fun _ _ => { ok := true, written := some goodEntry }
    listResult := fun _ =>
      Except.ok (J.jarr [J.jobj [("documentIdentifier", J.jstr "D1")]])
    rmFails := fun _ => false }

def c4goodSt1 : St :=
  match runApps c4goodEnv cFlagF ["7"] st0 with
  | Except.ok s => s
  | Except.error _ => st0

/-- Environment with a document record whose `officialDate` is JSON
`null`, so `None.split('T')` raises `AttributeError`. -/
def c7env : Env :=
  { rootDir := "R"
    headerContent := fun _ => none
    fetchResult := fun _ _ => { ok := false, written := none }
    listResult := fun _ =>
      Except.ok (J.jarr [J.jobj
        [("documentIdentifier", J.jstr "D"), ("officialDate", J.jnull)]])
    rmFails := fun _ => false }

/-- Environment whose probe header block contains a `Location:` field
with a whitespace-only value, so `get_redirect_url` returns `''`. -/
def c1env : Env :=
  { rootDir := "R"
    headerContent := fun _ => some "Location:  \n"
    fetchResult := fun _ _ => { ok := false, written := none }
    listResult := fun _ => Except.error "unused"
    rmFails := fun _ => false }

/-- Environment whose probe finds a real redirect target. -/
def c1envW : Env :=
  { rootDir := "R"
    headerContent := fun _ => some "Location: https://s3.example/a.pdf\n"
    fetchResult := fun _ _ => { ok := false, written := none }
    listResult := fun _ => Except.error "unused"
    rmFails := fun _ => false }

def c3doc : J := J.jobj [("documentIdentifier", J.jstr "D")]

def c3st : St := initSt [(targetPath "R/App_A" "A" "nodate" "DOC" "D", goodEntry)]

def c5doc : DocR :=
  { docId := "D1"
    bag := [{ mime := some "pdf", url := some "https://api.example/doc1" }]
    topUrl := none }

/-! Basic lemmas about the filesystem model and the validator. -/

theorem fsGet_fsRemove (fs : FS) (p q : String) (h : q ≠ p) :
    fsGet (fsRemove fs p) q = fsGet fs q := by
  induction fs with
  | nil => rfl
  | cons kv r ih =>
    obtain ⟨k, e⟩ := kv
    simp only [fsRemove]
    by_cases hkp : k = p
    · have hkq : ¬k = q := by
        rw [hkp]
        exact fun hh => h hh.symm
      rw [if_pos hkp, ih]
      simp [fsGet, hkq]
    · rw [if_neg hkp]
      simp only [fsGet]
      by_cases hkq : k = q
      · simp [hkq]
      · simp [hkq, ih]

theorem fsGet_fsSet_self (fs : FS) (p : String) (e : FileEntry) :
    fsGet (fsSet fs p e) p = some e := by
  simp [fsSet, fsGet]

theorem fsGet_fsSet_ne (fs : FS) (p : String) (e : FileEntry) (q : String)
    (h : q ≠ p) : fsGet (fsSet fs p e) q = fsGet fs q := by
  simp only [fsSet, fsGet, Ne.symm h, if_false]
  exact fsGet_fsRemove fs p q h

theorem verifyPdf_eq_of_get {fs1 fs2 : FS} {q : String}
    (h : fsGet fs1 q = fsGet fs2 q) : verifyPdf fs1 q = verifyPdf fs2 q := by
  unfold verifyPdf
  rw [h]

theorem verifyPdf_valid {fs : FS} {p : String} {e : FileEntry}
    (hg : fsGet fs p = some e) (hv : validEntry e = true) :
    verifyPdf fs p = true := by
  simp only [validEntry, Bool.and_assoc, Bool.and_eq_true, Bool.not_eq_true',
    decide_eq_true_eq, beq_iff_eq] at hv
  obtain ⟨h1, h2, h3⟩ := hv
  simp [verifyPdf, hg, h1, h3, Nat.not_lt.mpr h2]

theorem verifyPdf_some {fs : FS} {p : String} (h : verifyPdf fs p = true) :
    ∃ e, fsGet fs p = some e ∧ validEntry e = true := by
  cases hg : fsGet fs p with
  | none => simp [verifyPdf, hg] at h
  | some e =>
    refine ⟨e, rfl, ?_⟩
    simp only [verifyPdf, hg] at h
    by_cases hlen : e.bytes.length < 100
    · simp [hlen] at h
    · by_cases herr : e.readErr
      · simp [hlen, herr] at h
      · simp only [hlen, if_false, herr, if_false] at h
        simp only [validEntry, Bool.and_eq_true, Bool.not_eq_true',
          decide_eq_true_eq, beq_iff_eq] at *
        exact ⟨⟨by simp [herr], Nat.not_lt.mp hlen⟩, by simpa using h⟩

/-- C2: `verify_pdf` returns false for a missing path, for any file of
fewer than 100 bytes, for a wrong 4-byte signature, and for a read
error (fails closed, no propagation — the model is total); it returns
true for an existing readable file of at least 100 bytes starting with
`%PDF`. -/
theorem verify_pdf_c2 :
    ∀ (fs : FS) (p : String),
      (fsGet fs p = none → verifyPdf fs p = false) ∧
      (∀ e : FileEntry, fsGet fs p = some e → e.bytes.length < 100 →
        verifyPdf fs p = false) ∧
      (∀ e : FileEntry, fsGet fs p = some e → e.bytes.take 4 ≠ pdfMagic →
        verifyPdf fs p = false) ∧
      (∀ e : FileEntry, fsGet fs p = some e → e.readErr = true →
        verifyPdf fs p = false) ∧
      (∀ e : FileEntry, fsGet fs p = some e → e.readErr = false →
        100 ≤ e.bytes.length → e.bytes.take 4 = pdfMagic →
        verifyPdf fs p = true) := by
  intro fs p
  refine ⟨?_, ?_, ?_, ?_, ?_⟩
  · intro h
    simp [verifyPdf, h]
  · intro e he hlen
    simp [verifyPdf, he, hlen]
  · intro e he hne
    simp only [verifyPdf, he]
    by_cases hlen : e.bytes.length < 100
    · simp [hlen]
    · by_cases herr : e.readErr
      · simp [hlen, herr]
      · simp [hlen, herr, hne]
  · intro e he herr
    simp only [verifyPdf, he]
    by_cases hlen : e.bytes.length < 100
    · simp [hlen]
    · simp [hlen, herr]
  · intro e he herr hlen hmagic
    simp [verifyPdf, he, herr, hmagic, Nat.not_lt.mpr hlen]

/-- Witness for C2 at a concrete valid file and a concrete missing
path. -/
theorem verify_pdf_c2_witness :
    verifyPdf [("x.pdf", goodEntry)] "x.pdf" = true ∧
    verifyPdf [] "y.pdf" = false :=
  ⟨(verify_pdf_c2 [("x.pdf", goodEntry)] "x.pdf").2.2.2.2 goodEntry rfl rfl
      (by decide) (by decide),
   (verify_pdf_c2 [] "y.pdf").1 rfl⟩

/-- C6 counterexample: the operator input `"17/123,456"` does not
normalize to the single number `"17123456"`; the comma is turned into
a separator before splitting. -/
theorem normalize_c6_counterexample :
    normalizeInput "17/123,456" ≠ ["17123456"] := by decide

/-- C6 amended: commas in the operator input act as separators (they
are replaced by spaces before splitting), so `"17/123,456"` yields the
two identifiers `"17123"` and `"456"`; slash characters are stripped
inside each identifier, so `"17/123456"` yields `"17123456"`. -/
theorem normalize_c6 :
    normalizeInput "17/123,456" = ["17123", "456"] ∧
    normalizeInput "17/123456" = ["17123456"] ∧
    normalizeInput "17123456 16/111,222\n15333444" =
      ["17123456", "16111", "222", "15333444"] := by
  refine ⟨by decide, by decide, by decide⟩

/-- C8 counterexample: the header parser of `get_redirect_url` misses
an all-upper-case `LOCATION:` field (the regular expression only
allows `Location:` or `location:`), although the claim gives exactly
this capitalization as matched. -/
theorem location_header_c8_counterexample :
    parseLoc "HTTP/1.1 302 Found\nLOCATION: https://s3.example/doc1.pdf\n" =
      none ∧
    parseLoc "HTTP/1.1 302 Found\nLocation: https://s3.example/doc1.pdf\n" =
      some "https://s3.example/doc1.pdf" := ⟨rfl, rfl⟩

/-- C8 amended: the resolver matches a `Location` field only when it is
spelled `Location:` or `location:` (just the first letter is
case-insensitive; all-caps spellings are missed); at the first such
line admitting a match it returns the trimmed text the regex captures
— the remainder of that line when it is non-blank, and otherwise, the
regex's `\s*` spanning newlines, the first following non-blank header
line; header blocks without a match (or a missing header file) yield
nothing. -/
theorem location_header_c8 :
    parseLoc "Location:   https://a.example/x   \n" = some "https://a.example/x" ∧
    parseLoc "location: https://b.example/y\nX: z\n" =
      some "https://b.example/y" ∧
    parseLoc "HTTP/1.1 302\nLocation:\nContent-Length: 0\n\n" =
      some "Content-Length: 0" ∧
    parseLoc "Location:  \nFoo: bar\n" = some "Foo: bar" ∧
    parseLoc "LOCATION: https://c.example/z\n" = none ∧
    parseLoc "HTTP/1.1 200 OK\nContent-Type: text/html\n" = none ∧
    getRedirectUrlModel none = none := ⟨rfl, rfl, rfl, rfl, rfl, rfl, rfl⟩

/-- C1 counterexample: a header block whose `Location:` field has a
whitespace-only value makes the probe return the empty string — a
returned `Location` value — yet the final fetch goes to the originally
resolved URL with the credential header (`if s3_url:` is false on
`''`), not to the returned value without it. -/
theorem redirect_branching_c1_counterexample :
    probeResult c1env (J.jstr "https://u.example/d") = some "" ∧
    (downloadStrategy c1env (J.jstr "https://u.example/d") "R/f.pdf" st0).trace =
      [Ev.probeEv (J.jstr "https://u.example/d"),
       Ev.fetchEv (J.jstr "https://u.example/d") true] := ⟨rfl, rfl⟩

/-- C1 amended: when the probe returns a non-empty `Location` value the
final fetch is issued to that value without the credential header;
when it returns nothing — or an empty value — the final fetch is
issued to the originally resolved URL with the credential header. -/
theorem redirect_branching_c1 :
    ∀ (env : Env) (official : J) (p : String) (st : St),
      (∀ v, probeResult env official = some v → v ≠ "" →
        (downloadStrategy env official p st).trace =
          st.trace ++ [Ev.probeEv official, Ev.fetchEv (J.jstr v) false]) ∧
      ((probeResult env official = none ∨ probeResult env official = some "") →
        (downloadStrategy env official p st).trace =
          st.trace ++ [Ev.probeEv official, Ev.fetchEv official true]) := by
  intro env official p st
  constructor
  · intro v hv hne
    have hdata : v.data.isEmpty = false := by
      cases v with
      | mk l =>
        cases l with
        | nil => exact absurd rfl hne
        | cons a as => rfl
    simp only [downloadStrategy, chooseFetch, hv, hdata, Bool.false_eq_true,
      if_false]
    split <;> rfl
  · intro hv
    have hc : chooseFetch (probeResult env official) official = (official, true) := by
      cases hv with
      | inl hn =>
        rw [hn]
        rfl
      | inr he =>
        rw [he]
        rfl
    simp only [downloadStrategy, hc]
    split <;> rfl

/-- Witness for C1 at a concrete probe that returns a real redirect
target. -/
theorem redirect_branching_c1_witness :
    (downloadStrategy c1envW (J.jstr "https://u.example/d") "R/f.pdf" st0).trace =
      [Ev.probeEv (J.jstr "https://u.example/d"),
       Ev.fetchEv (J.jstr "https://s3.example/a.pdf") false] :=
  (redirect_branching_c1 c1envW (J.jstr "https://u.example/d") "R/f.pdf" st0).1
    "https://s3.example/a.pdf" rfl (by decide)

/-- C9: under a monotone stop flag, from any state whose next flag read
returns true, both loops exit at once: the application loop lists no
further application and the document loop starts no further fetch (the
event trace is unchanged), and the files on disk are untouched. -/
theorem cancellation_c9 :
    ∀ (env : Env) (flag : Nat → Bool),
      (∀ i j, i ≤ j → flag i = true → flag j = true) →
      ∀ k, flag k = true →
      ∀ st : St, k ≤ st.reads →
        (∀ apps, ∃ st', runApps env flag apps st = Except.ok st' ∧
          st'.fs = st.fs ∧ st'.trace = st.trace ∧ st'.success = st.success ∧
          st'.processed = st.processed) ∧
        (∀ listUrl app folder docs, ∃ st',
          runDocs env flag listUrl app folder docs st = Except.ok st' ∧
          st'.fs = st.fs ∧ st'.trace = st.trace ∧ st'.success = st.success ∧
          st'.processed = st.processed) := by
  intro env flag mono k hk st hle
  have hf : flag st.reads = true := mono k st.reads hle hk
  constructor
  · intro apps
    cases apps with
    | nil => exact ⟨st, rfl, rfl, rfl, rfl, rfl⟩
    | cons a rest =>
      refine ⟨bumpRead st, ?_, rfl, rfl, rfl, rfl⟩
      simp [runApps, hf]
  · intro listUrl app folder docs
    cases docs with
    | nil => exact ⟨st, rfl, rfl, rfl, rfl, rfl⟩
    | cons d rest =>
      refine ⟨bumpRead st, ?_, rfl, rfl, rfl, rfl⟩
      simp [runDocs, hf]

/-- Witness for C9 with the flag constantly set: two applications,
nothing is listed or fetched. -/
theorem cancellation_c9_witness :
    ∃ st', runApps trivEnv (fun _ => true) ["A", "B"] st0 = Except.ok st' ∧
      st'.fs = st0.fs ∧ st'.trace = st0.trace ∧ st'.success = st0.success ∧
      st'.processed = st0.processed :=
  (cancellation_c9 trivEnv (fun _ => true) (fun _ _ _ hh => hh) 0 rfl st0
    (Nat.le_refl 0)).1 ["A", "B"]

/-- C3: for a document whose target file exists, `run_process` skips it
untouched (no probe, no fetch, no state change) when it validates, and
otherwise deletes it — or, if `os.remove` raises, swallows the error
and keeps going — before resolving the URL and running the download
strategy on the remaining file set. -/
theorem skip_replace_c3 :
    ∀ (env : Env) (listUrl app folder : String) (doc : J) (st : St)
      (idStr codeStr dateStr : String) (e : FileEntry),
      extractMeta doc = Except.ok (idStr, codeStr, dateStr) →
      fsGet st.fs (targetPath folder app dateStr codeStr idStr) = some e →
      ((verifyPdf st.fs (targetPath folder app dateStr codeStr idStr) = true →
          docStep env listUrl app folder doc st = Except.ok st) ∧
       (verifyPdf st.fs (targetPath folder app dateStr codeStr idStr) = false →
          docStep env listUrl app folder doc st =
            (resolveUrl doc listUrl idStr).map (fun official =>
              downloadStrategy env official
                (targetPath folder app dateStr codeStr idStr)
                { st with fs :=
                    (if env.rmFails (targetPath folder app dateStr codeStr idStr)
                     then st.fs
                     else fsRemove st.fs
                       (targetPath folder app dateStr codeStr idStr)) }))) := by
  intro env listUrl app folder doc st idStr codeStr dateStr e hm hg
  constructor
  · intro hv
    simp [docStep, hm, hg, hv]
  · intro hv
    simp only [docStep, hm, hg, hv, Bool.false_eq_true, if_false]
    cases hres : resolveUrl doc listUrl idStr <;> simp [Except.map]

/-- Witness for C3 at a concrete existing valid file: the step is a
no-op. -/
theorem skip_replace_c3_witness :
    docStep trivEnv (listUrlOf "A") "A" "R/App_A" c3doc c3st = Except.ok c3st :=
  (skip_replace_c3 trivEnv (listUrlOf "A") "A" "R/App_A" c3doc c3st
    "D" "DOC" "nodate" goodEntry rfl rfl).1 (by decide)

/-- C10: the success counter increments on a download step exactly when
the fetch command reports transport success and the file at the target
path validates afterwards; a document skipped for an existing valid
file leaves the state (hence the counter) unchanged; a transport
failure or a post-download validation failure never increments it. -/
theorem success_counter_c10 :
    (∀ (env : Env) (official : J) (p : String) (st : St),
      (downloadStrategy env official p st).success =
        st.success +
          (if (env.fetchResult (chooseFetch (probeResult env official) official).1
                (chooseFetch (probeResult env official) official).2).ok = true ∧
              verifyPdf (downloadStrategy env official p st).fs p = true
           then 1 else 0)) ∧
    (∀ (env : Env) (listUrl app folder : String) (doc : J) (st : St)
      (idStr codeStr dateStr : String),
      extractMeta doc = Except.ok (idStr, codeStr, dateStr) →
      verifyPdf st.fs (targetPath folder app dateStr codeStr idStr) = true →
      docStep env listUrl app folder doc st = Except.ok st) ∧
    (∀ (env : Env) (official : J) (p : String) (st : St),
      (env.fetchResult (chooseFetch (probeResult env official) official).1
        (chooseFetch (probeResult env official) official).2).ok = false →
      (downloadStrategy env official p st).success = st.success) ∧
    (∀ (env : Env) (official : J) (p : String) (st : St),
      verifyPdf (downloadStrategy env official p st).fs p = false →
      (downloadStrategy env official p st).success = st.success) := by
  have hmain : ∀ (env : Env) (official : J) (p : String) (st : St),
      (downloadStrategy env official p st).success =
        st.success +
          (if (env.fetchResult (chooseFetch (probeResult env official) official).1
                (chooseFetch (probeResult env official) official).2).ok = true ∧
              verifyPdf (downloadStrategy env official p st).fs p = true
           then 1 else 0) := by
    intro env official p st
    simp only [downloadStrategy]
    split
    · rename_i hcond
      rw [if_pos]
      simp only [Bool.and_eq_true] at hcond
      exact ⟨hcond.1, hcond.2⟩
    · rename_i hcond
      rw [if_neg]
      · rfl
      · intro hcontra
        apply hcond
        simp only [Bool.and_eq_true]
        exact ⟨hcontra.1, hcontra.2⟩
  refine ⟨hmain, ?_, ?_, ?_⟩
  · intro env listUrl app folder doc st idStr codeStr dateStr hm hv
    obtain ⟨e, hg, _⟩ := verifyPdf_some hv
    simp [docStep, hm, hg, hv]
  · intro env official p st hok
    rw [hmain env official p st, if_neg]
    · rfl
    · intro hcontra
      rw [hcontra.1] at hok
      cases hok
  · intro env official p st hver
    rw [hmain env official p st, if_neg]
    · rfl
    · intro hcontra
      rw [hcontra.2] at hver
      cases hver

/-- Witness for C10: a concrete skipped document leaves the state
unchanged, and a concrete transport failure leaves the counter
unchanged. -/
theorem success_counter_c10_witness :
    docStep trivEnv (listUrlOf "B") "A" "R/App_A" c3doc c3st = Except.ok c3st ∧
    (downloadStrategy trivEnv (J.jstr "u") "p" st0).success = st0.success :=
  ⟨success_counter_c10.2.1 trivEnv (listUrlOf "B") "A" "R/App_A" c3doc c3st
      "D" "DOC" "nodate" rfl (by decide),
   success_counter_c10.2.2.1 trivEnv (J.jstr "u") "p" st0 rfl⟩

/-- C7 counterexample: a document record whose `officialDate` field is
JSON `null` raises an uncaught `AttributeError` inside the document
loop (`None.split('T')`), terminating the whole run — a failure below
the batch level that is not caught. -/
theorem error_isolation_c7_counterexample :
    runApps c7env cFlagF ["9"] st0 = Except.error "AttributeError" := by rfl

/-- C7 amended: a list-endpoint failure is caught and skips only that
application, and any fetch or validation failure inside a document
step is absorbed into the per-document bookkeeping (the step returns
normally for every fetch outcome); but an exception raised while
extracting a document's fields — a malformed record — is not caught
and terminates the run. -/
theorem error_isolation_c7 :
    (∀ (env : Env) (flag : Nat → Bool) (app : String) (rest : List String)
      (st : St) (e : String),
      env.listResult app = Except.error e → flag st.reads = false →
      runApps env flag (app :: rest) st =
        runApps env flag rest
          { st with reads := st.reads + 1, processed := st.processed + 1,
                    trace := st.trace ++ [Ev.listApp app] }) ∧
    (∀ (env : Env) (listUrl app folder : String) (doc : J) (st : St)
      (idStr codeStr dateStr : String) (official : J),
      extractMeta doc = Except.ok (idStr, codeStr, dateStr) →
      resolveUrl doc listUrl idStr = Except.ok official →
      ∃ st', docStep env listUrl app folder doc st = Except.ok st') := by
  constructor
  · intro env flag app rest st e hlist hflag
    simp only [runApps, hflag, Bool.false_eq_true, if_false, hlist,
      Except.bind]
    rfl
  · intro env listUrl app folder doc st idStr codeStr dateStr official hm hres
    cases hg : fsGet st.fs (targetPath folder app dateStr codeStr idStr) with
    | some e0 =>
      by_cases hv : verifyPdf st.fs (targetPath folder app dateStr codeStr idStr)
      · exact ⟨st, by simp [docStep, hm, hg, hv]⟩
      · refine ⟨downloadStrategy env official
          (targetPath folder app dateStr codeStr idStr)
          { st with fs :=
              (if env.rmFails (targetPath folder app dateStr codeStr idStr)
               then st.fs
               else fsRemove st.fs
                 (targetPath folder app dateStr codeStr idStr)) }, ?_⟩
        simp [docStep, hm, hg, hv, hres]
    | none =>
      refine ⟨downloadStrategy env official
        (targetPath folder app dateStr codeStr idStr) st, ?_⟩
      simp [docStep, hm, hg, hres]

/-- Witness for C7: the list failure in `trivEnv` skips the application
and the run goes on with the next one. -/
theorem error_isolation_c7_witness :
    runApps trivEnv cFlagF ["A"] st0 =
      runApps trivEnv cFlagF []
        { st0 with reads := st0.reads + 1, processed := st0.processed + 1,
                   trace := st0.trace ++ [Ev.listApp "A"] } :=
  error_isolation_c7.1 trivEnv cFlagF "A" [] st0 "ListError" rfl rfl

set_option maxRecDepth 200000 in
/-- C4 counterexample: with the API responses unchanged (the same
deterministic environment), a first run whose only document downloads
with exit status 0 but a non-PDF body leaves an invalid file behind;
the second run then deletes it and downloads again — one fetch, not
zero. -/
theorem idempotence_c4_counterexample :
    c4fetches2 = Except.ok 1 ∧ c4fetches2 ≠ Except.ok 0 := by
  have h1 : c4fetches2 = Except.ok 1 := by rfl
  refine ⟨h1, ?_⟩
  rw [h1]
  simp

/-! URL resolution on well-formed records (claim C5). -/

theorem firstPdfUrl_encode (bag : List BagEntry) :
    firstPdfUrl (bag.map encodeEntry) =
      Except.ok ((bag.find? isPdfEntry).map (fun b => b.url.map J.jstr)) := by
  induction bag with
  | nil => rfl
  | cons b r ih =>
    have hmime : jget (encodeEntry b) "mimeTypeIdentifier" =
        Except.ok (b.mime.map J.jstr) := by
      cases hm : b.mime <;> cases hu : b.url <;>
        simp [encodeEntry, hm, hu, jget, lookupKvs]
    have hpdf : upperIsPdf (b.mime.map J.jstr) = Except.ok (isPdfEntry b) := by
      cases hm : b.mime <;> simp [upperIsPdf, isPdfEntry, hm, Option.getD]
    cases hp : isPdfEntry b with
    | true =>
      have hurl : jget (encodeEntry b) "downloadUrl" =
          Except.ok (b.url.map J.jstr) := by
        cases hm : b.mime <;> cases hu : b.url <;>
          simp [encodeEntry, hm, hu, jget, lookupKvs]
      simp [firstPdfUrl, hmime, hpdf, hp, hurl, List.find?]
    | false =>
      simp [firstPdfUrl, hmime, hpdf, hp, List.find?, ih]

theorem jget_encodeDoc_bag (d : DocR) :
    jget (encodeDoc d) "downloadOptionBag" =
      Except.ok (some (J.jarr (d.bag.map encodeEntry))) := by
  cases ht : d.topUrl <;> simp [encodeDoc, ht, jget, lookupKvs]

theorem jget_encodeDoc_top (d : DocR) :
    jget (encodeDoc d) "downloadUrl" = Except.ok (d.topUrl.map J.jstr) := by
  cases ht : d.topUrl <;> simp [encodeDoc, ht, jget, lookupKvs]

theorem topOrFallback_encode (d : DocR) (listUrl : String) :
    topOrFallback (encodeDoc d) listUrl d.docId =
      Except.ok (J.jstr (match d.topUrl with
        | some u => u
        | none => listUrl ++ "/" ++ d.docId)) := by
  cases ht : d.topUrl <;> simp [topOrFallback, jget_encodeDoc_top, ht]

/-- C5: on a well-formed document record (fields present are strings,
and the preferred URLs are not the empty string) the code resolves the
download URL exactly in the claimed preference order: the
`downloadUrl` of the first `downloadOptionBag` entry whose MIME type
is `PDF` case-insensitively, else the top-level `downloadUrl`, else
`<listUrl>/<documentIdentifier>`. -/
theorem resolve_url_c5 :
    ∀ (d : DocR) (listUrl : String),
      (∀ b, d.bag.find? isPdfEntry = some b → b.url ≠ some "") →
      resolveUrl (encodeDoc d) listUrl d.docId =
        Except.ok (J.jstr (resolveUrlSpec d listUrl)) := by
  intro d listUrl hne
  have hbag := jget_encodeDoc_bag d
  have hiter : asIter (J.jarr (d.bag.map encodeEntry)) =
      Except.ok (d.bag.map encodeEntry) := rfl
  cases hfind : d.bag.find? isPdfEntry with
  | none =>
    simp [resolveUrl, hbag, hiter, firstPdfUrl_encode, hfind,
      topOrFallback_encode, resolveUrlSpec]
  | some b =>
    cases hurl : b.url with
    | none =>
      simp [resolveUrl, hbag, hiter, firstPdfUrl_encode, hfind, hurl,
        topOrFallback_encode, resolveUrlSpec]
    | some u =>
      have hu : u ≠ "" := by
        intro hcontra
        exact hne b hfind (by rw [hurl, hcontra])
      have hdata : u.data.isEmpty = false := by
        cases u with
        | mk l =>
          cases l with
          | nil => exact absurd rfl hu
          | cons a as => rfl
      simp [resolveUrl, hbag, hiter, firstPdfUrl_encode, hfind, hurl,
        resolveUrlSpec, jTruthy, hdata]

/-- Witness for C5 at a concrete record with a PDF bag entry. -/
theorem resolve_url_c5_witness :
    resolveUrl (encodeDoc c5doc) "https://api.example/list" "D1" =
      Except.ok (J.jstr (resolveUrlSpec c5doc "https://api.example/list")) :=
  resolve_url_c5 c5doc "https://api.example/list" (fun b hb => by
    have hb' : b = { mime := some "pdf", url := some "https://api.example/doc1" } := by
      have hfind : c5doc.bag.find? isPdfEntry =
          some { mime := some "pdf", url := some "https://api.example/doc1" } := by
        rfl
      rw [hfind] at hb
      exact (Option.some.inj hb).symm
    rw [hb']
    intro hcontra
    simp at hcontra)

/-! Machinery for the idempotence claim C4: in an environment whose
fetches always deliver valid PDF bodies, validity of target paths is
established by every document step and preserved by the rest of the
run, so a complete first run makes every target path valid and the
second run only skips. -/

theorem countFetch_append (a b : List Ev) :
    countFetch (a ++ b) = countFetch a + countFetch b := by
  simp [countFetch, List.filter_append]

theorem strategy_good {env : Env} (H : goodEnv env) (official : J)
    (p : String) (st : St) :
    verifyPdf (downloadStrategy env official p st).fs p = true ∧
    ∀ q, verifyPdf st.fs q = true →
      verifyPdf (downloadStrategy env official p st).fs q = true := by
  obtain ⟨hok, e, hw, hv⟩ :=
    H (chooseFetch (probeResult env official) official).1
      (chooseFetch (probeResult env official) official).2
  have hfs : (downloadStrategy env official p st).fs = fsSet st.fs p e := by
    simp only [downloadStrategy, hw]
    split <;> rfl
  constructor
  · rw [hfs]
    exact verifyPdf_valid (fsGet_fsSet_self st.fs p e) hv
  · intro q hq
    rw [hfs]
    by_cases hqp : q = p
    · subst hqp
      exact verifyPdf_valid (fsGet_fsSet_self st.fs q e) hv
    · rw [verifyPdf_eq_of_get (fsGet_fsSet_ne st.fs p e q hqp)]
      exact hq

theorem docStep_extract {env : Env} {listUrl app folder : String} {doc : J}
    {st st' : St} (h : docStep env listUrl app folder doc st = Except.ok st') :
    ∃ m, extractMeta doc = Except.ok m := by
  cases hm : extractMeta doc with
  | error e =>
    simp [docStep, hm] at h
  | ok m => exact ⟨m, rfl⟩

theorem docStep_good {env : Env} (H : goodEnv env)
    {listUrl app folder : String} {doc : J} {st st' : St}
    (h : docStep env listUrl app folder doc st = Except.ok st') :
    (∀ q, verifyPdf st.fs q = true → verifyPdf st'.fs q = true) ∧
    (∀ i c d, extractMeta doc = Except.ok (i, c, d) →
      verifyPdf st'.fs (targetPath folder app d c i) = true) := by
  cases hm : extractMeta doc with
  | error e =>
    simp [docStep, hm] at h
  | ok m =>
    obtain ⟨i0, c0, d0⟩ := m
    have hinj : ∀ i c d,
        (Except.ok (i0, c0, d0) : Except String (String × String × String)) =
          Except.ok (i, c, d) → i0 = i ∧ c0 = c ∧ d0 = d := by
      intro i c d hm2
      have h3 := Except.ok.inj hm2
      exact ⟨congrArg Prod.fst h3,
        congrArg (fun x => x.2.1) h3,
        congrArg (fun x => x.2.2) h3⟩
    simp only [docStep, hm] at h
    cases hg : fsGet st.fs (targetPath folder app d0 c0 i0) with
    | some e0 =>
      rw [hg] at h
      by_cases hv : verifyPdf st.fs (targetPath folder app d0 c0 i0) = true
      · simp only [hv, if_true] at h
        obtain rfl := Except.ok.inj h
        refine ⟨fun q hq => hq, ?_⟩
        intro i c d hm2
        obtain ⟨rfl, rfl, rfl⟩ := hinj i c d hm2
        exact hv
      · simp only [hv, if_false] at h
        cases hres : resolveUrl doc listUrl i0 with
        | error e1 =>
          rw [hres] at h
          cases h
        | ok off =>
          rw [hres] at h
          obtain rfl := Except.ok.inj h
          constructor
          · intro q hq
            by_cases hqp : q = targetPath folder app d0 c0 i0
            · subst hqp
              exact absurd hq hv
            · have hfs1 : verifyPdf
                  (if env.rmFails (targetPath folder app d0 c0 i0) then st.fs
                   else fsRemove st.fs (targetPath folder app d0 c0 i0)) q = true := by
                by_cases hrm : env.rmFails (targetPath folder app d0 c0 i0) = true
                · rw [if_pos hrm]
                  exact hq
                · rw [if_neg hrm,
                    verifyPdf_eq_of_get
                      (fsGet_fsRemove st.fs (targetPath folder app d0 c0 i0) q hqp)]
                  exact hq
              exact (strategy_good H off (targetPath folder app d0 c0 i0) _).2 q hfs1
          · intro i c d hm2
            obtain ⟨rfl, rfl, rfl⟩ := hinj i c d hm2
            exact (strategy_good H off _ _).1
    | none =>
      rw [hg] at h
      cases hres : resolveUrl doc listUrl i0 with
      | error e1 =>
        rw [hres] at h
        cases h
      | ok off =>
        rw [hres] at h
        obtain rfl := Except.ok.inj h
        constructor
        · intro q hq
          exact (strategy_good H off (targetPath folder app d0 c0 i0) st).2 q hq
        · intro i c d hm2
          obtain ⟨rfl, rfl, rfl⟩ := hinj i c d hm2
          exact (strategy_good H off _ _).1

theorem runDocs_good {env : Env} (H : goodEnv env)
    (listUrl app folder : String) :
    ∀ (docs : List J) (st st' : St),
      runDocs env cFlagF listUrl app folder docs st = Except.ok st' →
      (∀ q, verifyPdf st.fs q = true → verifyPdf st'.fs q = true) ∧
      (∀ doc ∈ docs, (∃ m, extractMeta doc = Except.ok m) ∧
        (∀ i c d, extractMeta doc = Except.ok (i, c, d) →
          verifyPdf st'.fs (targetPath folder app d c i) = true)) := by
  intro docs
  induction docs with
  | nil =>
    intro st st' h
    obtain rfl := Except.ok.inj h
    exact ⟨fun q hq => hq, by simp⟩
  | cons doc rest ih =>
    intro st st' h
    simp only [runDocs, cFlagF, Bool.false_eq_true, if_false] at h
    cases hds : docStep env listUrl app folder doc (bumpRead st) with
    | error e =>
      rw [hds] at h
      cases h
    | ok stM =>
      rw [hds] at h
      obtain ⟨Q1, Q2⟩ := docStep_good H hds
      obtain ⟨P1, P2⟩ := ih stM st' h
      constructor
      · intro q hq
        exact P1 q (Q1 q hq)
      · intro doc2 hmem
        rcases List.mem_cons.mp hmem with rfl | hmem2
        · exact ⟨docStep_extract hds,
            fun i c d hm2 => P1 _ (Q2 i c d hm2)⟩
        · exact P2 doc2 hmem2

theorem runApps_good {env : Env} (H : goodEnv env) :
    ∀ (apps : List String) (st st' : St),
      runApps env cFlagF apps st = Except.ok st' →
      (∀ q, verifyPdf st.fs q = true → verifyPdf st'.fs q = true) ∧
      (∀ app ∈ apps, appIterOk env app ∧
        ∀ doc ∈ docsOf env app,
          (∃ m, extractMeta doc = Except.ok m) ∧
          (∀ i c d, extractMeta doc = Except.ok (i, c, d) →
            verifyPdf st'.fs
              (targetPath (appFolder env.rootDir app) app d c i) = true)) := by
  intro apps
  induction apps with
  | nil =>
    intro st st' h
    obtain rfl := Except.ok.inj h
    exact ⟨fun q hq => hq, by simp⟩
  | cons app rest ih =>
    intro st st' h
    simp only [runApps, cFlagF, Bool.false_eq_true, if_false] at h
    cases hbind : (env.listResult app).bind normalizeDocs with
    | error e =>
      rw [hbind] at h
      obtain ⟨P1, P2⟩ := ih _ st' h
      refine ⟨fun q hq => P1 q hq, ?_⟩
      intro a hmem
      rcases List.mem_cons.mp hmem with rfl | hmem2
      · refine ⟨?_, ?_⟩
        · intro dj hdj
          rw [hbind] at hdj
          cases hdj
        · intro doc hd
          rw [show docsOf env a = [] from by simp [docsOf, hbind]] at hd
          cases hd
      · exact P2 a hmem2
    | ok dj =>
      simp only [hbind] at h
      cases ht : jTruthy dj with
      | false =>
        rw [ht] at h
        simp only [Bool.false_eq_true, if_false] at h
        obtain ⟨P1, P2⟩ := ih _ st' h
        refine ⟨fun q hq => P1 q hq, ?_⟩
        intro a hmem
        rcases List.mem_cons.mp hmem with rfl | hmem2
        · refine ⟨?_, ?_⟩
          · intro dj' hdj' ht'
            rw [hbind] at hdj'
            obtain rfl := Except.ok.inj hdj'
            rw [ht] at ht'
            cases ht'
          · intro doc hd
            rw [show docsOf env a = [] from by simp [docsOf, hbind, ht]] at hd
            cases hd
        · exact P2 a hmem2
      | true =>
        rw [ht] at h
        simp only [if_true] at h
        cases hit : asIter dj with
        | error e =>
          rw [hit] at h
          simp at h
        | ok docs =>
          simp only [hit] at h
          cases hrd : runDocs env cFlagF (listUrlOf app) app
              (appFolder env.rootDir app) docs _ with
          | error e =>
            rw [hrd] at h
            simp at h
          | ok stM =>
            simp only [hrd] at h
            obtain ⟨R1, R2⟩ := runDocs_good H (listUrlOf app) app
              (appFolder env.rootDir app) docs _ stM hrd
            obtain ⟨P1, P2⟩ := ih stM st' h
            have hdocs : docsOf env app = docs := by
              simp [docsOf, hbind, ht, hit]
            refine ⟨fun q hq => P1 q (R1 q hq), ?_⟩
            intro a hmem
            rcases List.mem_cons.mp hmem with rfl | hmem2
            · refine ⟨?_, ?_⟩
              · intro dj' hdj' ht'
                rw [hbind] at hdj'
                obtain rfl := Except.ok.inj hdj'
                exact ⟨docs, hit⟩
              · intro doc hd
                rw [hdocs] at hd
                obtain ⟨E, V⟩ := R2 doc hd
                exact ⟨E, fun i c d hm2 => P1 _ (V i c d hm2)⟩
            · exact P2 a hmem2

theorem docStep_skip {env : Env} {listUrl app folder : String} {doc : J}
    {st : St} {i c d : String}
    (hm : extractMeta doc = Except.ok (i, c, d))
    (hv : verifyPdf st.fs (targetPath folder app d c i) = true) :
    docStep env listUrl app folder doc st = Except.ok st := by
  obtain ⟨e, hg, _⟩ := verifyPdf_some hv
  simp [docStep, hm, hg, hv]

theorem runDocs_skip (env : Env) (listUrl app folder : String) :
    ∀ (docs : List J) (st : St),
      (∀ doc ∈ docs, ∃ i c d, extractMeta doc = Except.ok (i, c, d) ∧
        verifyPdf st.fs (targetPath folder app d c i) = true) →
      ∃ st', runDocs env cFlagF listUrl app folder docs st = Except.ok st' ∧
        st'.fs = st.fs ∧ st'.trace = st.trace ∧ st'.success = st.success ∧
        st'.processed = st.processed := by
  intro docs
  induction docs with
  | nil =>
    intro st hh
    exact ⟨st, rfl, rfl, rfl, rfl, rfl⟩
  | cons doc rest ih =>
    intro st hh
    obtain ⟨i, c, d, hm, hv⟩ := hh doc (List.mem_cons_self doc rest)
    have hstep : docStep env listUrl app folder doc (bumpRead st) =
        Except.ok (bumpRead st) := docStep_skip hm hv
    obtain ⟨st', hrun, hfs, htr, hsucc, hproc⟩ :=
      ih (bumpRead st) (fun doc2 hmem => hh doc2 (List.mem_cons_of_mem _ hmem))
    refine ⟨st', ?_, hfs, htr, hsucc, hproc⟩
    simp only [runDocs, cFlagF, Bool.false_eq_true, if_false, hstep]
    exact hrun

theorem runApps_second (env : Env) :
    ∀ (apps : List String) (st : St),
      (∀ app ∈ apps, appIterOk env app ∧
        ∀ doc ∈ docsOf env app, ∃ i c d,
          extractMeta doc = Except.ok (i, c, d) ∧
          verifyPdf st.fs
            (targetPath (appFolder env.rootDir app) app d c i) = true) →
      ∃ st', runApps env cFlagF apps st = Except.ok st' ∧
        st'.fs = st.fs ∧ st'.success = st.success ∧
        countFetch st'.trace = countFetch st.trace := by
  intro apps
  induction apps with
  | nil =>
    intro st hh
    exact ⟨st, rfl, rfl, rfl, rfl⟩
  | cons app rest ih =>
    intro st hh
    obtain ⟨hiter, hvalid⟩ := hh app (List.mem_cons_self app rest)
    have hrest : ∀ (stN : St), stN.fs = st.fs →
        ∀ a ∈ rest, appIterOk env a ∧
          ∀ doc ∈ docsOf env a, ∃ i c d,
            extractMeta doc = Except.ok (i, c, d) ∧
            verifyPdf stN.fs
              (targetPath (appFolder env.rootDir a) a d c i) = true := by
      intro stN hfsN a ha
      obtain ⟨h1, h2⟩ := hh a (List.mem_cons_of_mem _ ha)
      refine ⟨h1, ?_⟩
      intro doc hd
      obtain ⟨i, c, d, hm, hv⟩ := h2 doc hd
      refine ⟨i, c, d, hm, ?_⟩
      rw [hfsN]
      exact hv
    cases hbind : (env.listResult app).bind normalizeDocs with
    | error e =>
      obtain ⟨st', hrun, hfs, hsucc, hcf⟩ := ih (stepSt st app) (hrest _ rfl)
      refine ⟨st', ?_, hfs, hsucc, ?_⟩
      · simp only [runApps, cFlagF, Bool.false_eq_true, if_false, hbind]
        exact hrun
      · rw [hcf]
        simp [stepSt, countFetch_append, countFetch]
    | ok dj =>
      cases ht : jTruthy dj with
      | false =>
        obtain ⟨st', hrun, hfs, hsucc, hcf⟩ := ih (stepSt st app) (hrest _ rfl)
        refine ⟨st', ?_, hfs, hsucc, ?_⟩
        · simp only [runApps, cFlagF, Bool.false_eq_true, if_false, hbind, ht]
          exact hrun
        · rw [hcf]
          simp [stepSt, countFetch_append, countFetch]
      | true =>
        obtain ⟨l, hit⟩ := hiter dj hbind ht
        have hdocs : docsOf env app = l := by
          simp [docsOf, hbind, ht, hit]
        obtain ⟨stM, hrunD, hfsM, htrM, hsuccM, hprocM⟩ :=
          runDocs_skip env (listUrlOf app) app (appFolder env.rootDir app) l
            (stepSt st app)
            (by
              intro doc hd
              rw [← hdocs] at hd
              obtain ⟨i, c, d, hm, hv⟩ := hvalid doc hd
              exact ⟨i, c, d, hm, hv⟩)
        obtain ⟨st', hrun, hfs, hsucc, hcf⟩ := ih stM (hrest stM hfsM)
        refine ⟨st', ?_, by rw [hfs, hfsM]; rfl, by rw [hsucc, hsuccM]; rfl, ?_⟩
        · simp only [runApps, cFlagF, Bool.false_eq_true, if_false, hbind, ht,
            if_true, hit, hrunD]
          exact hrun
        · rw [hcf, htrM]
          simp [stepSt, countFetch_append, countFetch]

/-- C4 counterexample shows the unconditional claim fails; this is the
amended version: if additionally every fetch the environment can
deliver succeeds with a valid PDF body — so that after the first run
every target path validates — then a second run over the same
application numbers with the same environment performs zero downloads,
records zero new successes, and leaves the file set exactly as the
first run left it. -/
theorem idempotence_c4 :
    ∀ (env : Env) (apps : List String) (stA st1 : St),
      goodEnv env →
      runApps env cFlagF apps stA = Except.ok st1 →
      ∃ st2, runApps env cFlagF apps (initSt st1.fs) = Except.ok st2 ∧
        st2.fs = st1.fs ∧ st2.success = 0 ∧ countFetch st2.trace = 0 := by
  intro env apps stA st1 H h1
  obtain ⟨_, P2⟩ := runApps_good H apps stA st1 h1
  obtain ⟨st2, hrun, hfs, hsucc, hcf⟩ := runApps_second env apps (initSt st1.fs)
    (by
      intro app ha
      obtain ⟨hiter, hval⟩ := P2 app ha
      refine ⟨hiter, ?_⟩
      intro doc hd
      obtain ⟨⟨m, hm⟩, V⟩ := hval doc hd
      obtain ⟨i, c, d⟩ := m
      exact ⟨i, c, d, hm, V i c d hm⟩)
  exact ⟨st2, hrun, hfs, hsucc, hcf⟩

set_option maxRecDepth 200000 in
/-- Witness for C4: a concrete environment always delivering a valid
PDF; the first run is computed, the theorem then yields the
download-free second run. -/
theorem idempotence_c4_witness :
    ∃ st2, runApps c4goodEnv cFlagF ["7"] (initSt c4goodSt1.fs) =
        Except.ok st2 ∧
      st2.fs = c4goodSt1.fs ∧ st2.success = 0 ∧ countFetch st2.trace = 0 :=
  idempotence_c4 c4goodEnv ["7"] st0 c4goodSt1
    (fun _ _ => ⟨rfl, goodEntry, rfl, by decide⟩) (by rfl)

end PTOFW
